import Mathlib

/-!
Shallow embedding of `main.py` of the todoist-gsheet-export repository.

The script reconciles completed Todoist tasks against a Google Sheet for the
last seven calendar days.  The embedding below translates each source function
into a pure Lean definition.  External HTTP and Sheets calls are modelled by an
environment record whose fields hold the (deterministic) outcome of each remote
call: a value of type `Except String A` is the result of a Python call that
either returns an `A` or raises an exception carrying a message string.  The
Google Sheet's mutable target cells are threaded explicitly as an association
list from cell address (for example `"Jan-24!E13"`) to the stored string.
-/

/-! ## Small Python-semantics helpers -/

/-- Python's `sep.join(xs)`: the elements of `xs` concatenated with `sep`
between consecutive elements and no trailing separator. -/
def py_join (sep : String) : List String → String
  | [] => ""
  | [x] => x
  | x :: y :: xs => x ++ sep ++ py_join sep (y :: xs)

/-- Python's slice `s[a:b]` for `0 ≤ a ≤ b` (as used in `split_date_string`). -/
def pySlice (s : String) (a b : Nat) : String :=
  String.mk ((s.toList.drop a).take (b - a))

/-- First-match association-list lookup; models a Python `dict` access (for the
fixed literal month dictionary) and the sheet's address-to-value store. -/
def dict_get : List (String × String) → String → Option String
  | [], _ => none
  | p :: rest, k => if k = p.1 then some p.2 else dict_get rest k

/-- Python truthiness of an optional cell value: `None` and `""` are falsy,
every other string is truthy.  Models `if cell_value:` in `main`. -/
def truthy : Option String → Prop
  | none => False
  | some s => s ≠ ""

instance (v : Option String) : Decidable (truthy v) :=
  match v with
  | none => isFalse (fun h => h)
  | some s => inferInstanceAs (Decidable (s ≠ ""))

/-! ## Retry wrapper: `retry_api_call`

The wrapped operation `func` takes no arguments in Python; successive
invocations are modelled as a trace `func : Nat → Except String A` giving the
result of the k-th invocation (0-based).  The returned record collects the
overall result (`Except.ok none` models Python falling off the end of the
function and returning `None`), the number of invocations performed, and one
entry per logged retry: the 1-based attempt number printed, the failure
message, and the `delay * 2 ^ attempt` sleep that follows the log line. -/

deriving instance DecidableEq for Except

structure RetryResult (A : Type) where
  result : Except String (Option A)
  calls : Nat
  retries : List (Nat × String × Int)
deriving DecidableEq

/-- Python's `range(n)` for a possibly non-positive `int` bound: empty when
`n ≤ 0`. -/
def int_range (n : Int) : List Nat := List.range n.toNat

/-- Loop body of `retry_api_call`, structurally recursing over the attempt
list `range(max_retries)`.  On success the value is returned; on failure at
the last attempt (`attempt == max_retries - 1`) the error is re-raised
unchanged; on earlier failures a retry is logged and the loop continues. -/
def retry_loop {A : Type} (func : Nat → Except String A) (max_retries delay : Int) :
    List Nat → RetryResult A
  | [] => ⟨Except.ok none, 0, []⟩
  | attempt :: rest =>
    match func attempt with
    | Except.ok v => ⟨Except.ok (some v), 1, []⟩
    | Except.error e =>
      if (attempt : Int) = max_retries - 1 then ⟨Except.error e, 1, []⟩
      else
        let r := retry_loop func max_retries delay rest
        ⟨r.result, r.calls + 1, (attempt + 1, e, delay * 2 ^ attempt) :: r.retries⟩

/-- `retry_api_call(func, max_retries, delay)`; the source's default arguments
are `max_retries=3, delay=1`. -/
def retry_api_call {A : Type} (func : Nat → Except String A) (max_retries delay : Int) :
    RetryResult A :=
  retry_loop func max_retries delay (int_range max_retries)

/-! ## Day window: `get_day_iso_range`

`datetime.datetime` values are modelled as a calendar-day number (an integer,
so that subtracting a `timedelta` of whole days is integer subtraction) paired
with a time of day; `datetime.time.min` is midnight and `datetime.time.max` is
`23:59:59.999999`.  The final `isoformat() + 'Z'` string conversion is not
modelled here; the orchestrator's environment supplies the formatted strings
directly (field `startIso` below). -/

structure PyTime where
  hour : Nat
  minute : Nat
  second : Nat
  microsecond : Nat
deriving DecidableEq

/-- `datetime.time.min` = 00:00:00.000000. -/
def time_min : PyTime := ⟨0, 0, 0, 0⟩

/-- `datetime.time.max` = 23:59:59.999999. -/
def time_max : PyTime := ⟨23, 59, 59, 999999⟩

structure PyDateTime where
  date : Int
  time : PyTime
deriving DecidableEq

/-- `datetime.datetime.combine(date, time)`. -/
def datetime_combine (d : Int) (t : PyTime) : PyDateTime := ⟨d, t⟩

/-- `get_day_iso_range(days_ago)` evaluated when the current UTC date is
`today`: start and end of the day `days_ago` days before `today`. -/
def get_day_iso_range (today : Int) (days_ago : Nat) : PyDateTime × PyDateTime :=
  let target_date := today - days_ago
  (datetime_combine target_date time_min, datetime_combine target_date time_max)

/-- Microseconds since midnight. -/
def PyTime.toMicroseconds (t : PyTime) : Nat :=
  ((t.hour * 60 + t.minute) * 60 + t.second) * 1000000 + t.microsecond

/-- Absolute microsecond timestamp of a datetime (86400000000 microseconds per
day). -/
def PyDateTime.toMicroseconds (dt : PyDateTime) : Int :=
  dt.date * 86400000000 + dt.time.toMicroseconds

/-! ## Tab name and date-string splitting -/

/-- The fixed literal `month_dict` of `get_tab_name`. -/
def month_dict : List (String × String) :=
  [("01", "Jan"), ("02", "Feb"), ("03", "Mar"), ("04", "Apr"), ("05", "May"),
   ("06", "Jun"), ("07", "Jul"), ("08", "Aug"), ("09", "Sep"), ("10", "Oct"),
   ("11", "Nov"), ("12", "Dec")]

/-- `get_tab_name(year, month)`: `month_dict[month] + "-" + year`.  A month
string absent from the dictionary raises `KeyError` in Python, modelled as
`none`. -/
def get_tab_name (year month : String) : Option String :=
  (dict_get month_dict month).map (fun ab => ab ++ "-" ++ year)

/-- Message of the `KeyError` raised by `month_dict[month]`; Python's
`str(KeyError(k))` is the repr of the key. -/
def keyErrorMsg (month : String) : String := "'" ++ month ++ "'"

/-- `split_date_string(date_iso_string)`: `(s[2:4], s[5:7], s[:10])`, that is
(two-digit year, two-digit month, ISO date). -/
def split_date_string (date_iso_string : String) : String × String × String :=
  (pySlice date_iso_string 2 4, pySlice date_iso_string 5 7,
   pySlice date_iso_string 0 10)

/-! ## Row locator (inline loop in `main`) -/

/-- The row-search loop of `main`: starting at 0-based index `i`, return
`i + 1` (the 1-based sheet row) for the first row that is non-empty and whose
column-A entry equals `target`; `none` when no row matches (`row_index == -1`
in the source). -/
def findRowAux (target : String) : List (List String) → Nat → Option Nat
  | [], _ => none
  | row :: rest, i =>
    match row with
    | [] => findRowAux target rest (i + 1)
    | a :: _ => if a = target then some (i + 1) else findRowAux target rest (i + 1)

/-- Locate the 1-based row of the first row whose column A equals `target`. -/
def findRowIndex (rows : List (List String)) (target : String) : Option Nat :=
  findRowAux target rows 0

/-! ## Task records and summary formatting -/

/-- A completed-task record; `content` models `task.get("content", "")`, every
other field of the API response is ignored by the script. -/
structure TaskRecord where
  content : String
deriving DecidableEq

/-- The value written into the cell: `"N/A"` when no tasks were fetched,
otherwise `"; ".join(task contents)`. -/
def format_summary (tasks : List TaskRecord) : String :=
  if tasks.isEmpty then "N/A" else py_join "; " (tasks.map TaskRecord.content)

/-! ## Project resolution: `get_project_id` -/

structure Project where
  id : String
  name : String
deriving DecidableEq

/-- The `for project in projects` loop: id of the first project whose `name`
equals `project_name` (Python `==` on strings, case-sensitive). -/
def findProject : List Project → String → Option String
  | [], _ => none
  | p :: ps, n => if p.name = n then some p.id else findProject ps n

/-- `get_project_id(project_name)`.  `fetched` is the outcome of
`retry_api_call(_make_request)` (the project list, or the transport error after
retries are exhausted).  Every failure is re-raised wrapped in
`"Failed to get project ID: "`. -/
def get_project_id (fetched : Except String (List Project)) (project_name : String) :
    Except String String :=
  match fetched with
  | Except.error e => Except.error ("Failed to get project ID: " ++ e)
  | Except.ok projects =>
    match findProject projects project_name with
    | some i => Except.ok i
    | none =>
      Except.error ("Failed to get project ID: Project '" ++ project_name ++ "' not found.")

/-! ## The orchestrator (`main`)

The per-day outcomes of the spec's data model. -/

inductive DayOutcome where
  | written (summary : String)
  | skippedAlreadyFilled (existing : String)
  | skippedTabMissing
  | skippedDateNotFound
  | failed (err : String)
deriving DecidableEq

/-- The sheet's target cells: an association list from cell address to stored
string (the rest of the sheet is read-only for the script).  `dict_get` reads
the current value; an absent address models an empty cell (`get_cell_value`
returns `None`). -/
abbrev Cells := List (String × String)

/-- `get_cell_value` on the modelled store (transport errors are injected
separately through the environment, field `readCellErr`). -/
def getCell (cells : Cells) (addr : String) : Option String := dict_get cells addr

/-- `update_google_sheet_cell`: overwrite the cell at `addr` with `v`. -/
def setCell (cells : Cells) (addr v : String) : Cells := (addr, v) :: cells

/-- Deterministic outcomes of the remote calls made inside one run.  Each
field is the result the corresponding client function would produce (after its
internal `retry_api_call` and message wrapping), with `Except.error` modelling
a raised exception:
* `startIso` — the `start_iso` string `get_day_iso_range(days_ago)` yields for
  each offset (ISO formatting of dates is abstracted into this field);
* `listTabs` — `list_sheet_tabs`;
* `rowsOf` — `get_rows_from_google_sheet` per tab;
* `readCellErr` — a transport failure of `get_cell_value` at an address
  (`none` = the read succeeds and yields the stored value);
* `tasksOf` — `get_completed_tasks` for the offset's ISO range (the resolved
  project id is fixed for the whole run, so the offset determines the call);
* `writeErr` — a transport failure of `update_google_sheet_cell` at an
  address (`none` = the write succeeds). -/
structure Env where
  startIso : Nat → String
  listTabs : Except String (List String)
  rowsOf : String → Except String (List (List String))
  readCellErr : String → Option String
  tasksOf : Nat → Except String (List TaskRecord)
  writeErr : String → Option String

/-- `env` with the task-source and cell-write collaborators replaced; used to
state that a skipped day never consults them. -/
def envWithFetch (env : Env) (f : Nat → Except String (List TaskRecord))
    (g : String → Option String) : Env :=
  ⟨env.startIso, env.listTabs, env.rowsOf, env.readCellErr, f, g⟩

/-- Result of the part of a day iteration that precedes the idempotency
check: a skip decision, or the address of the day's target cell. -/
inductive PreResult where
  | skipTab
  | skipDate
  | cell (addr : String)
deriving DecidableEq

/-- The day iteration up to and including the `get_cell_value` transport:
resolve the tab name (a bad month raises `KeyError`), list the tabs, skip if
the tab is absent, fetch the rows, locate the date row (skip if absent), form
the `E`-column address, and fail if reading the cell raises. -/
def preDay (env : Env) (d : Nat) : Except String PreResult :=
  let parts := split_date_string (env.startIso d)
  match get_tab_name parts.1 parts.2.1 with
  | none => Except.error (keyErrorMsg parts.2.1)
  | some tab =>
    match env.listTabs with
    | Except.error e => Except.error e
    | Except.ok tabs =>
      if tab ∈ tabs then
        match env.rowsOf tab with
        | Except.error e => Except.error e
        | Except.ok rows =>
          match findRowIndex rows parts.2.2 with
          | none => Except.ok PreResult.skipDate
          | some r =>
            let addr := tab ++ "!E" ++ toString r
            match env.readCellErr addr with
            | some e => Except.error e
            | none => Except.ok (PreResult.cell addr)
      else Except.ok PreResult.skipTab

/-- The tail of a day iteration once the cell was found empty: fetch the
tasks, format the summary, write the cell. -/
def afterFetch (env : Env) (cells : Cells) (d : Nat) (addr : String) :
    Except String (DayOutcome × Cells) :=
  match env.tasksOf d with
  | Except.error e => Except.error e
  | Except.ok tasks =>
    let s := format_summary tasks
    match env.writeErr addr with
    | some e => Except.error e
    | none => Except.ok (DayOutcome.written s, setCell cells addr s)

/-- One full day iteration without the surrounding `try`/`except`: an
`Except.error` is an exception reaching the per-iteration boundary. -/
def processDayBody (env : Env) (cells : Cells) (d : Nat) :
    Except String (DayOutcome × Cells) :=
  match preDay env d with
  | Except.error e => Except.error e
  | Except.ok PreResult.skipTab => Except.ok (DayOutcome.skippedTabMissing, cells)
  | Except.ok PreResult.skipDate => Except.ok (DayOutcome.skippedDateNotFound, cells)
  | Except.ok (PreResult.cell addr) =>
    match getCell cells addr with
    | some s =>
      if s = "" then afterFetch env cells d addr
      else Except.ok (DayOutcome.skippedAlreadyFilled s, cells)
    | none => afterFetch env cells d addr

/-- One day iteration including the per-iteration `try`/`except`: any raised
exception is converted into a `failed` outcome and the sheet is unchanged. -/
def processDay (env : Env) (cells : Cells) (d : Nat) : DayOutcome × Cells :=
  match processDayBody env cells d with
  | Except.error e => (DayOutcome.failed e, cells)
  | Except.ok r => r

/-- The `for days_ago in ...` loop over a list of offsets, returning the
per-day outcomes in iteration order together with the final cell store. -/
def runDays (env : Env) : List Nat → Cells → List DayOutcome × Cells
  | [], cells => ([], cells)
  | d :: ds, cells =>
    let r := processDay env cells d
    let rest := runDays env ds r.2
    (r.1 :: rest.1, rest.2)

/-- The source's window: `range(1, 8)` = offsets 1 through 7. -/
def day_offsets : List Nat := [1, 2, 3, 4, 5, 6, 7]

/-- The whole reconciliation loop of `main`. -/
def mainLoop (env : Env) (cells : Cells) : List DayOutcome × Cells :=
  runDays env day_offsets cells

/-! ## Startup phase and process exit -/

/-- Python truthiness of an environment variable (`os.getenv` result): unset
(`None`) and the empty string are falsy. -/
def falsy_env : Option String → Bool
  | none => true
  | some s => s == ""

/-- `validate_configuration()`: raise listing the missing variables when any
required value is falsy, then check that the service-account file exists.
(The source interpolates the file path into the second message; the path is
not tracked here.) -/
def validate_configuration (token sheet_id service_file project_name : Option String)
    (file_exists : Bool) : Except String Unit :=
  let required : List (String × Option String) :=
    [("TODOIST_API_TOKEN", token), ("GOOGLE_SHEET_ID", sheet_id),
     ("SERVICE_ACCOUNT_FILE", service_file), ("TODOIST_PROJECT_NAME", project_name)]
  let missing := (required.filter (fun p => falsy_env p.2)).map Prod.fst
  if missing.isEmpty then
    if file_exists then Except.ok ()
    else Except.error "Service account file not found"
  else
    Except.error ("Missing required environment variables: " ++ py_join ", " missing)

/-- Inputs of the startup phase of `main`: the four configuration values, the
service-account file-existence check, the outcome of
`get_google_sheets_service()`, and the outcome of the project-list fetch
inside `get_project_id`. -/
structure Startup where
  token : Option String
  sheet_id : Option String
  service_file : Option String
  project_name : Option String
  file_exists : Bool
  serviceOk : Except String Unit
  projects : Except String (List Project)

/-- `main()`: validate the configuration, build the Sheets service, resolve
the project id — any exception in this startup phase is caught by the outer
`except` and `main` returns 1 with no day processed — then run the 7-day loop
(whose per-day `try`/`except` lets no exception escape) and return 0.
The result is `(return value, per-day outcomes, final cells)`. -/
def mainRun (st : Startup) (env : Env) (cells : Cells) : Nat × List DayOutcome × Cells :=
  match validate_configuration st.token st.sheet_id st.service_file st.project_name
      st.file_exists with
  | Except.error _ => (1, [], cells)
  | Except.ok _ =>
    match st.serviceOk with
    | Except.error _ => (1, [], cells)
    | Except.ok _ =>
      match get_project_id st.projects (st.project_name.getD "") with
      | Except.error _ => (1, [], cells)
      | Except.ok _ =>
        let r := mainLoop env cells
        (0, r.1, r.2)

/-- The value `main()` returns: 1 after a fatal startup error, else 0. -/
def main_return (st : Startup) (env : Env) (cells : Cells) : Nat :=
  (mainRun st env cells).1

/-- The `if __name__ == "__main__": main()` block calls `main()` and discards
its return value; since `main` catches every exception, the interpreter always
finishes the script normally, so the operating-system exit status of the
process is 0 regardless of `main`'s return value. -/
def process_exit_status (st : Startup) (env : Env) (cells : Cells) : Nat :=
  let _ := mainRun st env cells
  0

/-! ## Concrete fixtures used to evaluate the model -/

/-- A run whose sheet has the `Jan-24` tab with one date row, and whose task
source returns one task titled `"A"` for every day. -/
def env_write : Env :=
  ⟨fun d => "2024-01-0" ++ toString d ++ "T00:00:00",
   Except.ok ["Jan-24"],
   fun _ => Except.ok [["2024-01-01"]],
   fun _ => none,
   fun _ => Except.ok [⟨"A"⟩],
   fun _ => none⟩

/-- Like `env_write`, but the single completed task has empty content (the
API item can also simply lack the `content` key, which `task.get` maps to
`""`), so the summary written to the cell is the empty string. -/
def env_empty_task : Env :=
  ⟨fun d => "2024-01-0" ++ toString d ++ "T00:00:00",
   Except.ok ["Jan-24"],
   fun _ => Except.ok [["2024-01-01"]],
   fun _ => none,
   fun _ => Except.ok [⟨""⟩],
   fun _ => none⟩

/-- A run in which `list_sheet_tabs` raises. -/
def env_boom : Env :=
  ⟨fun d => "2024-01-0" ++ toString d ++ "T00:00:00",
   Except.error "boom",
   fun _ => Except.ok [],
   fun _ => none,
   fun _ => Except.ok [],
   fun _ => none⟩

/-- A run whose dates carry the malformed month `"13"`. -/
def env_month13 : Env :=
  ⟨fun _ => "2024-13-01T00:00:00",
   Except.ok [],
   fun _ => Except.ok [],
   fun _ => none,
   fun _ => Except.ok [],
   fun _ => none⟩

/-- An environment all of whose sheet reads succeed with an empty sheet. -/
def env_trivial : Env :=
  ⟨fun d => "2024-01-0" ++ toString d ++ "T00:00:00",
   Except.ok [],
   fun _ => Except.ok [],
   fun _ => none,
   fun _ => Except.ok [],
   fun _ => none⟩

/-- An operation trace failing on the first two invocations and succeeding on
the third. -/
def func_then_ok : Nat → Except String Nat :=
  fun n => if n = 0 then Except.error "e0" else if n = 1 then Except.error "e1" else Except.ok 42

/-- An operation trace failing on every invocation. -/
def func_all_fail : Nat → Except String Nat :=
  fun n => if n = 0 then Except.error "e0" else if n = 1 then Except.error "e1"
           else Except.error "e2"

/-- A startup record with the API token unset: `validate_configuration`
raises. -/
def st_badConfig : Startup :=
  ⟨none, some "sheet", some "svc.json", some "Work", true, Except.ok (),
   Except.ok [⟨"456", "Work"⟩]⟩

/-- A fully valid startup record whose project list contains the configured
project. -/
def st_good : Startup :=
  ⟨some "tok", some "sheet", some "svc.json", some "Work", true, Except.ok (),
   Except.ok [⟨"123", "Inbox"⟩, ⟨"456", "Work"⟩]⟩

/-! ## Cell-store lemmas -/

theorem truthy_iff (v : Option String) : truthy v ↔ ∃ s, v = some s ∧ s ≠ "" := by
  cases v <;> simp [truthy]

theorem getCell_setCell_self (cells : Cells) (a v : String) :
    getCell (setCell cells a v) a = some v := by
  simp [getCell, setCell, dict_get]

theorem getCell_setCell_of_ne (cells : Cells) {a c : String} (v : String) (h : c ≠ a) :
    getCell (setCell cells a v) c = getCell cells c := by
  simp [getCell, setCell, dict_get, h]

/-! ## Single-day unfolding lemmas -/

theorem processDay_of_body_error {env : Env} {cells : Cells} {d : Nat} {e : String}
    (h : processDayBody env cells d = Except.error e) :
    processDay env cells d = (DayOutcome.failed e, cells) := by
  simp [processDay, h]

theorem processDay_of_body_ok {env : Env} {cells : Cells} {d : Nat} {r : DayOutcome × Cells}
    (h : processDayBody env cells d = Except.ok r) :
    processDay env cells d = r := by
  simp [processDay, h]

theorem processDayBody_pre_error {env : Env} {d : Nat} {e : String} (cells : Cells)
    (h : preDay env d = Except.error e) :
    processDayBody env cells d = Except.error e := by
  simp [processDayBody, h]

theorem processDay_pre_error {env : Env} {d : Nat} {e : String} (cells : Cells)
    (h : preDay env d = Except.error e) :
    processDay env cells d = (DayOutcome.failed e, cells) :=
  processDay_of_body_error (processDayBody_pre_error cells h)

theorem processDay_skipTab {env : Env} {d : Nat} (cells : Cells)
    (h : preDay env d = Except.ok PreResult.skipTab) :
    processDay env cells d = (DayOutcome.skippedTabMissing, cells) := by
  simp [processDay, processDayBody, h]

theorem processDay_skipDate {env : Env} {d : Nat} (cells : Cells)
    (h : preDay env d = Except.ok PreResult.skipDate) :
    processDay env cells d = (DayOutcome.skippedDateNotFound, cells) := by
  simp [processDay, processDayBody, h]

theorem processDay_filled {env : Env} {d : Nat} {addr s : String} (cells : Cells)
    (h : preDay env d = Except.ok (PreResult.cell addr))
    (hv : getCell cells addr = some s) (hs : s ≠ "") :
    processDay env cells d = (DayOutcome.skippedAlreadyFilled s, cells) := by
  simp [processDay, processDayBody, h, hv, hs]

theorem processDayBody_empty {env : Env} {d : Nat} {addr : String} (cells : Cells)
    (h : preDay env d = Except.ok (PreResult.cell addr))
    (hv : ¬ truthy (getCell cells addr)) :
    processDayBody env cells d = afterFetch env cells d addr := by
  cases hcv : getCell cells addr with
  | none => simp [processDayBody, h, hcv]
  | some s =>
    have hs : s = "" := by
      by_contra hne
      exact hv (by rw [hcv]; exact hne)
    subst hs
    simp [processDayBody, h, hcv]

theorem afterFetch_tasks_error {env : Env} {d : Nat} {e : String} (cells : Cells) (addr : String)
    (h : env.tasksOf d = Except.error e) :
    afterFetch env cells d addr = Except.error e := by
  simp [afterFetch, h]

theorem afterFetch_write_error {env : Env} {d : Nat} {ts : List TaskRecord} {addr e : String}
    (cells : Cells) (ht : env.tasksOf d = Except.ok ts) (hw : env.writeErr addr = some e) :
    afterFetch env cells d addr = Except.error e := by
  simp [afterFetch, ht, hw]

theorem afterFetch_ok {env : Env} {d : Nat} {ts : List TaskRecord} {addr : String}
    (cells : Cells) (ht : env.tasksOf d = Except.ok ts) (hw : env.writeErr addr = none) :
    afterFetch env cells d addr =
      Except.ok (DayOutcome.written (format_summary ts),
        setCell cells addr (format_summary ts)) := by
  simp [afterFetch, ht, hw]

/-- Either a day leaves the cell store untouched, or it wrote its summary into
a cell whose current value was falsy. -/
theorem processDay_cells_shape (env : Env) (cells : Cells) (d : Nat) :
    (processDay env cells d).2 = cells ∨
    ∃ addr s, ¬ truthy (getCell cells addr) ∧
      processDay env cells d = (DayOutcome.written s, setCell cells addr s) := by
  cases hpre : preDay env d with
  | error e => left; rw [processDay_pre_error cells hpre]
  | ok pr =>
    cases pr with
    | skipTab => left; rw [processDay_skipTab cells hpre]
    | skipDate => left; rw [processDay_skipDate cells hpre]
    | cell addr =>
      by_cases htr : truthy (getCell cells addr)
      · obtain ⟨s, hv, hs⟩ := (truthy_iff _).mp htr
        left; rw [processDay_filled cells hpre hv hs]
      · have hbody := processDayBody_empty cells hpre htr
        cases htk : env.tasksOf d with
        | error e =>
          left
          rw [processDay_of_body_error (hbody.trans (afterFetch_tasks_error cells addr htk))]
        | ok ts =>
          cases hwr : env.writeErr addr with
          | some e =>
            left
            rw [processDay_of_body_error (hbody.trans (afterFetch_write_error cells htk hwr))]
          | none =>
            right
            exact ⟨addr, format_summary ts, htr,
              processDay_of_body_ok (hbody.trans (afterFetch_ok cells htk hwr))⟩

/-- A truthy cell is never modified by a day iteration. -/
theorem processDay_frozen (env : Env) (cells : Cells) (d : Nat) (c : String)
    (h : truthy (getCell cells c)) :
    getCell (processDay env cells d).2 c = getCell cells c := by
  rcases processDay_cells_shape env cells d with hc | ⟨addr, s, hf, he⟩
  · rw [hc]
  · rw [he]
    by_cases hca : c = addr
    · subst hca; exact absurd h hf
    · exact getCell_setCell_of_ne cells s hca

/-- A cell that is absent after a day iteration was absent before it. -/
theorem processDay_none (env : Env) (cells : Cells) (d : Nat) (c : String)
    (h : getCell (processDay env cells d).2 c = none) :
    getCell cells c = none := by
  rcases processDay_cells_shape env cells d with hc | ⟨addr, s, _, he⟩
  · rw [hc] at h; exact h
  · rw [he] at h
    by_cases hca : c = addr
    · subst hca; rw [getCell_setCell_self] at h; cases h
    · rw [getCell_setCell_of_ne cells s hca] at h; exact h

/-! ## Loop lemmas -/

theorem runDays_cons_fst (env : Env) (d : Nat) (ds : List Nat) (cells : Cells) :
    (runDays env (d :: ds) cells).1 =
      (processDay env cells d).1 :: (runDays env ds (processDay env cells d).2).1 := rfl

theorem runDays_cons_snd (env : Env) (d : Nat) (ds : List Nat) (cells : Cells) :
    (runDays env (d :: ds) cells).2 = (runDays env ds (processDay env cells d).2).2 := rfl

theorem runDays_length (env : Env) : ∀ (ds : List Nat) (cells : Cells),
    (runDays env ds cells).1.length = ds.length := by
  intro ds
  induction ds with
  | nil => intro cells; rfl
  | cons d ds ih => intro cells; rw [runDays_cons_fst]; simp [ih]

/-- The i-th outcome of the loop is exactly the outcome of processing the i-th
offset against the store left behind by the previous offsets. -/
theorem runDays_get (env : Env) : ∀ (ds : List Nat) (cells : Cells) (i : Nat),
    (runDays env ds cells).1[i]? =
      (ds[i]?).map (fun d => (processDay env (runDays env (ds.take i) cells).2 d).1) := by
  intro ds
  induction ds with
  | nil => intro cells i; simp [runDays]
  | cons d ds ih =>
    intro cells i
    cases i with
    | zero => simp [runDays_cons_fst, runDays]
    | succ i =>
      rw [runDays_cons_fst]
      simp only [List.getElem?_cons_succ, List.take_succ_cons]
      rw [ih (processDay env cells d).2 i, runDays_cons_snd]

theorem runDays_frozen (env : Env) : ∀ (ds : List Nat) (cells : Cells) (c : String),
    truthy (getCell cells c) → getCell (runDays env ds cells).2 c = getCell cells c := by
  intro ds
  induction ds with
  | nil => intro cells c _; rfl
  | cons d ds ih =>
    intro cells c h
    have h1 := processDay_frozen env cells d c h
    have h2 : truthy (getCell (processDay env cells d).2 c) := by rw [h1]; exact h
    rw [runDays_cons_snd, ih _ c h2, h1]

theorem runDays_none (env : Env) : ∀ (ds : List Nat) (cells : Cells) (c : String),
    getCell (runDays env ds cells).2 c = none → getCell cells c = none := by
  intro ds
  induction ds with
  | nil => intro cells c h; exact h
  | cons d ds ih =>
    intro cells c h
    rw [runDays_cons_snd] at h
    exact processDay_none env cells d c (ih _ c h)

/-! ## Inversion lemmas for day outcomes -/

theorem processDay_written_inv {env : Env} {cells : Cells} {d : Nat} {s : String}
    (h : (processDay env cells d).1 = DayOutcome.written s) :
    ∃ addr ts, preDay env d = Except.ok (PreResult.cell addr) ∧
      ¬ truthy (getCell cells addr) ∧ env.tasksOf d = Except.ok ts ∧
      env.writeErr addr = none ∧ s = format_summary ts ∧
      (processDay env cells d).2 = setCell cells addr s := by
  cases hpre : preDay env d with
  | error e => rw [processDay_pre_error cells hpre] at h; cases h
  | ok pr =>
    cases pr with
    | skipTab => rw [processDay_skipTab cells hpre] at h; cases h
    | skipDate => rw [processDay_skipDate cells hpre] at h; cases h
    | cell addr =>
      by_cases htr : truthy (getCell cells addr)
      · obtain ⟨t, hv, hts⟩ := (truthy_iff _).mp htr
        rw [processDay_filled cells hpre hv hts] at h; cases h
      · have hbody := processDayBody_empty cells hpre htr
        cases htk : env.tasksOf d with
        | error e =>
          rw [processDay_of_body_error
            (hbody.trans (afterFetch_tasks_error cells addr htk))] at h
          cases h
        | ok ts =>
          cases hwr : env.writeErr addr with
          | some e =>
            rw [processDay_of_body_error
              (hbody.trans (afterFetch_write_error cells htk hwr))] at h
            cases h
          | none =>
            have hres := processDay_of_body_ok (hbody.trans (afterFetch_ok cells htk hwr))
            have hs : s = format_summary ts := by
              rw [hres] at h
              simpa using h.symm
            subst hs
            exact ⟨addr, ts, rfl, htr, rfl, hwr, rfl, by rw [hres]⟩

theorem processDay_skipped_filled_inv {env : Env} {cells : Cells} {d : Nat} {s : String}
    (h : (processDay env cells d).1 = DayOutcome.skippedAlreadyFilled s) :
    ∃ addr, preDay env d = Except.ok (PreResult.cell addr) ∧
      getCell cells addr = some s ∧ s ≠ "" ∧ (processDay env cells d).2 = cells := by
  cases hpre : preDay env d with
  | error e => rw [processDay_pre_error cells hpre] at h; cases h
  | ok pr =>
    cases pr with
    | skipTab => rw [processDay_skipTab cells hpre] at h; cases h
    | skipDate => rw [processDay_skipDate cells hpre] at h; cases h
    | cell addr =>
      by_cases htr : truthy (getCell cells addr)
      · obtain ⟨t, hv, hts⟩ := (truthy_iff _).mp htr
        have hres := processDay_filled cells hpre hv hts
        have hst : s = t := by
          rw [hres] at h
          simpa using h.symm
        subst hst
        exact ⟨addr, rfl, hv, hts, by rw [hres]⟩
      · have hbody := processDayBody_empty cells hpre htr
        cases htk : env.tasksOf d with
        | error e =>
          rw [processDay_of_body_error
            (hbody.trans (afterFetch_tasks_error cells addr htk))] at h
          cases h
        | ok ts =>
          cases hwr : env.writeErr addr with
          | some e =>
            rw [processDay_of_body_error
              (hbody.trans (afterFetch_write_error cells htk hwr))] at h
            cases h
          | none =>
            rw [processDay_of_body_ok (hbody.trans (afterFetch_ok cells htk hwr))] at h
            cases h

/-! ## Replay of the loop against its own final store -/

/-- One-day simulation step: if `Y` agrees (cell by cell) with the final store
`F` that the first run reaches after processing day `d` (from `X`) and then
the offsets `ds`, then processing day `d` on `Y` changes nothing observable,
and a day the first run wrote with a non-empty summary is skipped as already
filled. -/
theorem processDay_replay (env : Env) (d : Nat) (ds : List Nat) (X Y : Cells)
    (hY : ∀ c, getCell Y c = getCell (runDays env ds (processDay env X d).2).2 c) :
    (∀ c, getCell (processDay env Y d).2 c = getCell Y c) ∧
    (∀ s, (processDay env X d).1 = DayOutcome.written s → s ≠ "" →
      (processDay env Y d).1 = DayOutcome.skippedAlreadyFilled s) := by
  cases hpre : preDay env d with
  | error e =>
    refine ⟨fun c => by rw [processDay_pre_error Y hpre], fun s hw _ => ?_⟩
    rw [processDay_pre_error X hpre] at hw
    cases hw
  | ok pr =>
    cases pr with
    | skipTab =>
      refine ⟨fun c => by rw [processDay_skipTab Y hpre], fun s hw _ => ?_⟩
      rw [processDay_skipTab X hpre] at hw
      cases hw
    | skipDate =>
      refine ⟨fun c => by rw [processDay_skipDate Y hpre], fun s hw _ => ?_⟩
      rw [processDay_skipDate X hpre] at hw
      cases hw
    | cell addr =>
      have haddr : ∀ {a : String},
          preDay env d = Except.ok (PreResult.cell a) → a = addr := by
        intro a ha
        rw [hpre] at ha
        cases ha
        rfl
      -- What the first run left at `addr` once it wrote a summary there:
      have hwrite_final : ∀ s, (processDay env X d).1 = DayOutcome.written s → s ≠ "" →
          getCell (runDays env ds (processDay env X d).2).2 addr = some s := by
        intro s hw hs
        obtain ⟨a, ts, hpre2, _, _, _, _, hcells⟩ := processDay_written_inv hw
        cases haddr hpre2
        have htr : truthy (getCell (processDay env X d).2 addr) := by
          rw [hcells, getCell_setCell_self]
          exact hs
        rw [runDays_frozen env ds _ addr htr, hcells, getCell_setCell_self]
      cases hFv : getCell (runDays env ds (processDay env X d).2).2 addr with
      | some t =>
        by_cases ht : t = ""
        · subst ht
          -- The final value at `addr` is the falsy `""`: the replayed day
          -- refetches and rewrites the same empty summary.
          have hYv : getCell Y addr = some "" := by rw [hY addr, hFv]
          have hYfal : ¬ truthy (getCell Y addr) := by
            rw [hYv]
            simp [truthy]
          have hbodyY := processDayBody_empty Y hpre hYfal
          constructor
          · intro c
            cases htk : env.tasksOf d with
            | error e =>
              rw [processDay_of_body_error
                (hbodyY.trans (afterFetch_tasks_error Y addr htk))]
            | ok ts =>
              cases hwr : env.writeErr addr with
              | some e =>
                rw [processDay_of_body_error
                  (hbodyY.trans (afterFetch_write_error Y htk hwr))]
              | none =>
                -- The first run performed the same write; its summary must
                -- have been `""` for the final value to be `""`.
                have hXfal : ¬ truthy (getCell X addr) := by
                  intro htr
                  have h1 := processDay_frozen env X d addr htr
                  have h2 : truthy (getCell (processDay env X d).2 addr) := by
                    rw [h1]; exact htr
                  have h3 := runDays_frozen env ds _ addr h2
                  rw [hFv, h1] at h3
                  obtain ⟨u, hu, hus⟩ := (truthy_iff _).mp htr
                  rw [hu] at h3
                  injection h3 with h4
                  exact hus h4.symm
                have hPX := processDay_of_body_ok
                  ((processDayBody_empty X hpre hXfal).trans (afterFetch_ok X htk hwr))
                have hsum : format_summary ts = "" := by
                  by_contra hne
                  have htr : truthy (getCell (processDay env X d).2 addr) := by
                    rw [hPX, getCell_setCell_self]
                    exact hne
                  have h3 := runDays_frozen env ds _ addr htr
                  rw [hFv, hPX, getCell_setCell_self] at h3
                  injection h3 with h4
                  exact hne h4.symm
                have hPY := processDay_of_body_ok (hbodyY.trans (afterFetch_ok Y htk hwr))
                rw [hPY]
                by_cases hc : c = addr
                · subst hc
                  rw [getCell_setCell_self, hYv, hsum]
                · exact getCell_setCell_of_ne Y (format_summary ts) hc
          · intro s hw hs
            have := hwrite_final s hw hs
            rw [hFv] at this
            injection this with h5
            exact absurd h5.symm hs
        · -- The final value at `addr` is truthy: the replayed day skips.
          have hYv : getCell Y addr = some t := by rw [hY addr, hFv]
          have hPY := processDay_filled Y hpre hYv ht
          constructor
          · intro c; rw [hPY]
          · intro s hw hs
            have := hwrite_final s hw hs
            rw [hFv] at this
            injection this with h5
            rw [hPY, h5]
      | none =>
        have hYv : getCell Y addr = none := by rw [hY addr, hFv]
        have hYfal : ¬ truthy (getCell Y addr) := by rw [hYv]; exact fun h => h
        have hbodyY := processDayBody_empty Y hpre hYfal
        constructor
        · intro c
          cases htk : env.tasksOf d with
          | error e =>
            rw [processDay_of_body_error
              (hbodyY.trans (afterFetch_tasks_error Y addr htk))]
          | ok ts =>
            cases hwr : env.writeErr addr with
            | some e =>
              rw [processDay_of_body_error
                (hbodyY.trans (afterFetch_write_error Y htk hwr))]
            | none =>
              -- Impossible: the first run would have written `addr`, and a
              -- written cell cannot end up absent.
              exfalso
              have hXfal : ¬ truthy (getCell X addr) := by
                intro htr
                have h1 := processDay_frozen env X d addr htr
                have h2 : truthy (getCell (processDay env X d).2 addr) := by
                  rw [h1]; exact htr
                have h3 := runDays_frozen env ds _ addr h2
                rw [hFv, h1] at h3
                obtain ⟨u, hu, _⟩ := (truthy_iff _).mp htr
                rw [hu] at h3
                exact Option.noConfusion h3
              have hPX := processDay_of_body_ok
                ((processDayBody_empty X hpre hXfal).trans (afterFetch_ok X htk hwr))
              have h4 := runDays_none env ds (processDay env X d).2 addr hFv
              rw [hPX, getCell_setCell_self] at h4
              exact Option.noConfusion h4
        · intro s hw hs
          have := hwrite_final s hw hs
          rw [hFv] at this
          exact Option.noConfusion this

/-- Replaying the whole loop against any store that agrees with the first
run's final store changes nothing, and every day the first run wrote with a
non-empty summary is reported as already filled. -/
theorem runDays_replay (env : Env) : ∀ (ds : List Nat) (X Y : Cells),
    (∀ c, getCell Y c = getCell (runDays env ds X).2 c) →
    (∀ c, getCell (runDays env ds Y).2 c = getCell Y c) ∧
    List.Forall₂ (fun o1 o2 => ∀ s, o1 = DayOutcome.written s → s ≠ "" →
        o2 = DayOutcome.skippedAlreadyFilled s)
      (runDays env ds X).1 (runDays env ds Y).1 := by
  intro ds
  induction ds with
  | nil => exact fun X Y _ => ⟨fun c => rfl, List.Forall₂.nil⟩
  | cons d ds ih =>
    intro X Y h
    have h' : ∀ c, getCell Y c = getCell (runDays env ds (processDay env X d).2).2 c := by
      intro c
      rw [h c, runDays_cons_snd]
    obtain ⟨hstep, hout⟩ := processDay_replay env d ds X Y h'
    have hY2 : ∀ c, getCell (processDay env Y d).2 c =
        getCell (runDays env ds (processDay env X d).2).2 c := by
      intro c
      rw [hstep c, h' c]
    obtain ⟨hrest, hf2⟩ := ih (processDay env X d).2 (processDay env Y d).2 hY2
    constructor
    · intro c
      rw [runDays_cons_snd, hrest c, hstep c]
    · rw [runDays_cons_fst env d ds X, runDays_cons_fst env d ds Y]
      refine List.Forall₂.cons ?_ hf2
      intro s hw hs
      exact hout s hw hs

/-- Positional reading of a `Forall₂` relation between two lists. -/
theorem forall2_get {A B : Type} {R : A → B → Prop} :
    ∀ {l1 : List A} {l2 : List B}, List.Forall₂ R l1 l2 →
      ∀ (i : Nat) (a : A), l1[i]? = some a → ∃ b, l2[i]? = some b ∧ R a b := by
  intro l1 l2 h
  induction h with
  | nil => intro i a ha; simp at ha
  | @cons x y l1t l2t hR _ ih =>
    intro i a ha
    cases i with
    | zero =>
      rw [List.getElem?_cons_zero] at ha
      injection ha with h1
      subst h1
      exact ⟨y, List.getElem?_cons_zero, hR⟩
    | succ i =>
      rw [List.getElem?_cons_succ] at ha
      simp only [List.getElem?_cons_succ]
      exact ih i a ha

/-! ## Row-locator characterization -/

theorem findRowAux_none_iff (target : String) : ∀ (rows : List (List String)) (i : Nat),
    findRowAux target rows i = none ↔ ∀ row ∈ rows, row.head? ≠ some target := by
  intro rows
  induction rows with
  | nil => intro i; simp [findRowAux]
  | cons row rest ih =>
    intro i
    cases row with
    | nil => simp [findRowAux, ih (i + 1)]
    | cons a as =>
      by_cases ha : a = target
      · subst ha
        simp [findRowAux]
      · simp [findRowAux, ha, ih (i + 1)]

theorem findRowAux_some_iff (target : String) : ∀ (rows : List (List String)) (i r : Nat),
    findRowAux target rows i = some r ↔
      ∃ j row, rows[j]? = some row ∧ row.head? = some target ∧ r = i + j + 1 ∧
        ∀ k, k < j → ∀ row2, rows[k]? = some row2 → row2.head? ≠ some target := by
  intro rows
  induction rows with
  | nil => intro i r; simp [findRowAux]
  | cons row rest ih =>
    intro i r
    by_cases hm : row.head? = some target
    · obtain ⟨a, as, rfl⟩ : ∃ a as, row = a :: as := by
        cases row with
        | nil => simp at hm
        | cons a as => exact ⟨a, as, rfl⟩
      have ha : a = target := by simpa using hm
      constructor
      · intro h
        have hr : r = i + 1 := by
          simp [findRowAux, ha] at h
          omega
        exact ⟨0, a :: as, List.getElem?_cons_zero, hm, by omega,
          fun k hk => absurd hk (Nat.not_lt_zero k)⟩
      · rintro ⟨j, row2, hj, hh, hr, hp⟩
        cases j with
        | zero =>
          simp [findRowAux, ha]
          omega
        | succ j =>
          have h0 := hp 0 (Nat.succ_pos j) (a :: as) List.getElem?_cons_zero
          exact absurd hm h0
    · have hstep : findRowAux target (row :: rest) i = findRowAux target rest (i + 1) := by
        cases row with
        | nil => rfl
        | cons a as =>
          have ha : ¬ a = target := by simpa using hm
          simp [findRowAux, ha]
      rw [hstep, ih (i + 1) r]
      constructor
      · rintro ⟨j, row2, hj, hh, hr, hp⟩
        refine ⟨j + 1, row2, by simpa using hj, hh, by omega, ?_⟩
        intro k hk row3 hk3
        cases k with
        | zero =>
          rw [List.getElem?_cons_zero] at hk3
          injection hk3 with hk3
          rw [← hk3]
          exact hm
        | succ k =>
          exact hp k (by omega) row3 (by simpa using hk3)
      · rintro ⟨j, row2, hj, hh, hr, hp⟩
        cases j with
        | zero =>
          rw [List.getElem?_cons_zero] at hj
          injection hj with hj
          rw [hj] at hm
          exact absurd hh hm
        | succ j =>
          refine ⟨j, row2, by simpa using hj, hh, by omega, ?_⟩
          intro k hk row3 hk3
          exact hp (k + 1) (by omega) row3 (by simpa using hk3)

/-! ## Project-lookup lemmas -/

theorem findProject_some {ps : List Project} {n i : String} :
    findProject ps n = some i → ∃ p ∈ ps, p.name = n ∧ p.id = i := by
  induction ps with
  | nil => intro h; cases h
  | cons p rest ih =>
    intro h
    by_cases hp : p.name = n
    · rw [findProject, if_pos hp] at h
      injection h with h
      exact ⟨p, by simp, hp, h⟩
    · rw [findProject, if_neg hp] at h
      obtain ⟨q, hq, h1, h2⟩ := ih h
      exact ⟨q, by simp [hq], h1, h2⟩

theorem findProject_of_mem {ps : List Project} {n : String} :
    (∃ p ∈ ps, p.name = n) → ∃ i, findProject ps n = some i := by
  induction ps with
  | nil => rintro ⟨p, hp, _⟩; simp at hp
  | cons p rest ih =>
    rintro ⟨q, hq, hqn⟩
    by_cases hp : p.name = n
    · exact ⟨p.id, by rw [findProject, if_pos hp]⟩
    · rw [List.mem_cons] at hq
      rcases hq with hq | hq
      · subst hq; exact absurd hqn hp
      · obtain ⟨i, hi⟩ := ih ⟨q, hq, hqn⟩
        exact ⟨i, by rw [findProject, if_neg hp]; exact hi⟩

theorem findProject_none {ps : List Project} {n : String} :
    (∀ p ∈ ps, p.name ≠ n) → findProject ps n = none := by
  induction ps with
  | nil => intro _; rfl
  | cons p rest ih =>
    intro h
    rw [findProject, if_neg (h p (by simp))]
    exact ih (fun q hq => h q (by simp [hq]))

theorem dict_get_eq_none {l : List (String × String)} {k : String}
    (h : k ∉ l.map Prod.fst) : dict_get l k = none := by
  induction l with
  | nil => rfl
  | cons p rest ih =>
    simp only [List.map_cons, List.mem_cons, not_or] at h
    simp [dict_get, h.1, ih h.2]

/-! ## Claim theorems -/

theorem time_max_toMicroseconds : PyTime.toMicroseconds time_max = 86399999999 := rfl

theorem time_min_toMicroseconds : PyTime.toMicroseconds time_min = 0 := rfl

theorem datetime_combine_date (d : Int) (t : PyTime) : (datetime_combine d t).date = d := rfl

theorem datetime_combine_time (d : Int) (t : PyTime) : (datetime_combine d t).time = t := rfl

/-- C4: for every day offset and every current UTC date, the computed range
starts at midnight UTC of `today - offset` days, ends at 23:59:59.999999 of
the same calendar day, and end minus start is exactly 24 hours minus one
microsecond. -/
theorem get_day_iso_range_window (today : Int) (o : Nat) :
    ((get_day_iso_range today o).2).toMicroseconds -
        ((get_day_iso_range today o).1).toMicroseconds = 86400000000 - 1 ∧
    (get_day_iso_range today o).1 = datetime_combine (today - o) time_min ∧
    (get_day_iso_range today o).2.time = time_max ∧
    (get_day_iso_range today o).1.date = (get_day_iso_range today o).2.date := by
  refine ⟨?_, rfl, rfl, rfl⟩
  have e1 : (get_day_iso_range today o).1 = datetime_combine (today - o) time_min := rfl
  have e2 : (get_day_iso_range today o).2 = datetime_combine (today - o) time_max := rfl
  rw [e1, e2, PyDateTime.toMicroseconds, PyDateTime.toMicroseconds,
    datetime_combine_date, datetime_combine_time, datetime_combine_date,
    datetime_combine_time, time_max_toMicroseconds, time_min_toMicroseconds]
  omega

/-- C6: the value written to the cell is the literal `"N/A"` for zero fetched
tasks, and otherwise the task contents joined by `"; "` with no trailing
separator (for example contents `["A", "B"]` give `"A; B"`). -/
theorem format_summary_spec :
    format_summary [] = "N/A" ∧
    (∀ ts : List TaskRecord, ts ≠ [] →
      format_summary ts = py_join "; " (ts.map TaskRecord.content)) ∧
    (∀ a b : TaskRecord, format_summary [a, b] = a.content ++ "; " ++ b.content) ∧
    format_summary [⟨"A"⟩, ⟨"B"⟩] = "A; B" := by
  refine ⟨rfl, ?_, fun a b => rfl, by decide⟩
  intro ts h
  cases ts with
  | nil => exact absurd rfl h
  | cons a l => rfl

theorem format_summary_spec_witness :
    format_summary [TaskRecord.mk "A", TaskRecord.mk "B"] =
      py_join "; " ([TaskRecord.mk "A", TaskRecord.mk "B"].map TaskRecord.content) :=
  format_summary_spec.2.1 [TaskRecord.mk "A", TaskRecord.mk "B"] (by decide)

/-- C7: for every month of the fixed 12-entry table the resolver returns
`"{MonAbbrev}-{YY}"` (so ("24","01") gives "Jan-24" and ("24","12") gives
"Dec-24"); a month outside the table (such as "13") fails, and in the
orchestrator that failure becomes a `failed` outcome for the iteration with
the cell store untouched. -/
theorem get_tab_name_spec :
    (∀ y m ab : String, (m, ab) ∈ month_dict → get_tab_name y m = some (ab ++ "-" ++ y)) ∧
    (∀ y m : String, m ∉ month_dict.map Prod.fst → get_tab_name y m = none) ∧
    get_tab_name "24" "01" = some "Jan-24" ∧
    get_tab_name "24" "12" = some "Dec-24" ∧
    get_tab_name "24" "13" = none ∧
    (∀ (env : Env) (cells : Cells) (d : Nat),
      get_tab_name (split_date_string (env.startIso d)).1
          (split_date_string (env.startIso d)).2.1 = none →
      processDay env cells d =
        (DayOutcome.failed (keyErrorMsg (split_date_string (env.startIso d)).2.1), cells)) := by
  refine ⟨?_, ?_, rfl, rfl, rfl, ?_⟩
  · intro y m ab h
    fin_cases h <;> rfl
  · intro y m h
    simp [get_tab_name, dict_get_eq_none h]
  · intro env cells d h
    refine processDay_pre_error cells ?_
    simp only [preDay, h]

theorem get_tab_name_spec_witness :
    processDay env_month13 [] 1 = (DayOutcome.failed (keyErrorMsg "13"), []) :=
  get_tab_name_spec.2.2.2.2.2 env_month13 [] 1 (by decide)

/-- C5: the row locator returns the 1-based number of the first row whose
column-A entry equals the target exactly (first match wins), and reports "not
found" exactly when no row's column A equals the target; on rows
`[["2024-01-05","x"], ["2024-01-06","y"]]` the target "2024-01-06" yields row
2 and "2024-02-01" yields "not found". -/
theorem findRowIndex_spec :
    (∀ (rows : List (List String)) (target : String) (r : Nat),
      findRowIndex rows target = some r ↔
        ∃ j row, rows[j]? = some row ∧ row.head? = some target ∧ r = j + 1 ∧
          ∀ k, k < j → ∀ row2, rows[k]? = some row2 → row2.head? ≠ some target) ∧
    (∀ (rows : List (List String)) (target : String),
      findRowIndex rows target = none ↔ ∀ row ∈ rows, row.head? ≠ some target) ∧
    findRowIndex [["2024-01-05", "x"], ["2024-01-06", "y"]] "2024-01-06" = some 2 ∧
    findRowIndex [["2024-01-05", "x"], ["2024-01-06", "y"]] "2024-02-01" = none := by
  refine ⟨?_, ?_, by decide, by decide⟩
  · intro rows target r
    rw [findRowIndex, findRowAux_some_iff]
    constructor <;> rintro ⟨j, row, h1, h2, h3, h4⟩ <;>
      exact ⟨j, row, h1, h2, by omega, h4⟩
  · intro rows target
    rw [findRowIndex, findRowAux_none_iff]

theorem findRowIndex_spec_witness :
    ∃ j row, ([["2024-01-05", "x"], ["2024-01-06", "y"]] : List (List String))[j]? = some row ∧
      row.head? = some "2024-01-06" ∧ 2 = j + 1 ∧
      ∀ k, k < j → ∀ row2,
        ([["2024-01-05", "x"], ["2024-01-06", "y"]] : List (List String))[k]? = some row2 →
        row2.head? ≠ some "2024-01-06" :=
  (findRowIndex_spec.1 [["2024-01-05", "x"], ["2024-01-06", "y"]] "2024-01-06" 2).mp
    (by decide)

/-- C3: with `max_retries = 3` and `delay = 1` the wrapper invokes the
operation at most 3 times; failures on the first two attempts followed by a
success yield the success with exactly two logged retries whose sleeps are
`delay * 2 ^ 0` and `delay * 2 ^ 1`; failure on all three attempts re-raises
the third failure unchanged. -/
theorem retry_api_call_contract {A : Type} :
    (∀ func : Nat → Except String A, (retry_api_call func 3 1).calls ≤ 3) ∧
    (∀ (func : Nat → Except String A) (e0 e1 : String) (v : A),
      func 0 = Except.error e0 → func 1 = Except.error e1 → func 2 = Except.ok v →
      retry_api_call func 3 1 =
        ⟨Except.ok (some v), 3, [(1, e0, 1), (2, e1, 2)]⟩) ∧
    (∀ (func : Nat → Except String A) (e0 e1 e2 : String),
      func 0 = Except.error e0 → func 1 = Except.error e1 → func 2 = Except.error e2 →
      retry_api_call func 3 1 = ⟨Except.error e2, 3, [(1, e0, 1), (2, e1, 2)]⟩) := by
  have hr : int_range 3 = [0, 1, 2] := by decide
  refine ⟨?_, ?_, ?_⟩
  · intro func
    simp only [retry_api_call, hr]
    cases h0 : func 0 <;> cases h1 : func 1 <;> cases h2 : func 2 <;>
      simp [retry_loop, h0, h1, h2]
  · intro func e0 e1 v h0 h1 h2
    simp only [retry_api_call, hr]
    simp [retry_loop, h0, h1, h2]
  · intro func e0 e1 e2 h0 h1 h2
    simp only [retry_api_call, hr]
    simp [retry_loop, h0, h1, h2]

theorem retry_api_call_contract_witness :
    retry_api_call func_then_ok 3 1 =
      ⟨Except.ok (some 42), 3, [(1, "e0", 1), (2, "e1", 2)]⟩ ∧
    retry_api_call func_all_fail 3 1 =
      ⟨Except.error "e2", 3, [(1, "e0", 1), (2, "e1", 2)]⟩ :=
  ⟨retry_api_call_contract.2.1 func_then_ok "e0" "e1" 42 rfl rfl rfl,
   retry_api_call_contract.2.2 func_all_fail "e0" "e1" "e2" rfl rfl rfl⟩

/-- C10 (implicit): with a non-positive `max_retries` the wrapper never
invokes the operation, performs no delay, raises nothing and returns Python's
`None`; the operation is guaranteed to run at least once only when
`max_retries ≥ 1`. -/
theorem retry_api_call_nonpositive {A : Type} :
    (∀ (func : Nat → Except String A) (mr delay : Int), mr ≤ 0 →
      retry_api_call func mr delay = ⟨Except.ok none, 0, []⟩) ∧
    (∀ (func : Nat → Except String A) (mr delay : Int), 1 ≤ mr →
      1 ≤ (retry_api_call func mr delay).calls) := by
  constructor
  · intro func mr delay h
    have hr : int_range mr = [] := by
      simp only [int_range, List.range_eq_nil]
      omega
    simp only [retry_api_call, hr]
    rfl
  · intro func mr delay h
    obtain ⟨n, hn⟩ : ∃ n, mr.toNat = n + 1 := ⟨mr.toNat - 1, by omega⟩
    have hr : int_range mr = 0 :: (List.range n).map (fun x => x + 1) := by
      simp only [int_range, hn, List.range_succ_eq_map]
    simp only [retry_api_call, hr]
    cases h0 : func 0 with
    | ok v => simp [retry_loop, h0]
    | error e =>
      simp only [retry_loop, h0]
      split
      · exact Nat.le_refl 1
      · simp

theorem retry_api_call_nonpositive_witness :
    retry_api_call func_then_ok (-2) 5 = ⟨Except.ok none, 0, []⟩ ∧
    1 ≤ (retry_api_call func_then_ok 3 1).calls :=
  ⟨retry_api_call_nonpositive.1 func_then_ok (-2) 5 (by norm_num),
   retry_api_call_nonpositive.2 func_then_ok 3 1 (by norm_num)⟩

/-- C8: project resolution succeeds exactly on a case-sensitive exact name
match — returning the id of a matching project — and fails with a not-found
error when no name matches; a resolution failure makes `main` return before
the day loop, with no day processed and the sheet untouched. -/
theorem get_project_id_spec :
    (∀ (ps : List Project) (n i : String),
      get_project_id (Except.ok ps) n = Except.ok i → ∃ p ∈ ps, p.name = n ∧ p.id = i) ∧
    (∀ (ps : List Project) (n : String), (∃ p ∈ ps, p.name = n) →
      ∃ i, get_project_id (Except.ok ps) n = Except.ok i) ∧
    (∀ (ps : List Project) (n : String), (∀ p ∈ ps, p.name ≠ n) →
      get_project_id (Except.ok ps) n =
        Except.error ("Failed to get project ID: Project '" ++ n ++ "' not found.")) ∧
    (∀ (st : Startup) (env : Env) (cells : Cells) (e : String),
      get_project_id st.projects (st.project_name.getD "") = Except.error e →
      mainRun st env cells = (1, [], cells)) := by
  refine ⟨?_, ?_, ?_, ?_⟩
  · intro ps n i h
    cases hf : findProject ps n with
    | none => simp [get_project_id, hf] at h
    | some j =>
      simp only [get_project_id, hf] at h
      injection h with h
      exact h ▸ findProject_some hf
  · intro ps n h
    obtain ⟨i, hi⟩ := findProject_of_mem h
    exact ⟨i, by simp [get_project_id, hi]⟩
  · intro ps n h
    simp [get_project_id, findProject_none h]
  · intro st env cells e h
    cases hv : validate_configuration st.token st.sheet_id st.service_file st.project_name
        st.file_exists with
    | error e2 => simp [mainRun, hv]
    | ok u =>
      cases hs : st.serviceOk with
      | error e3 => simp [mainRun, hv, hs]
      | ok u2 => simp [mainRun, hv, hs, h]

theorem get_project_id_spec_witness :
    ∃ p ∈ [Project.mk "123" "Inbox", Project.mk "456" "Work"],
      p.name = "Work" ∧ p.id = "456" :=
  get_project_id_spec.1 [Project.mk "123" "Inbox", Project.mk "456" "Work"] "Work" "456"
    (by decide)

/-- C2: the orchestrator iterates offsets 1 through 7 in ascending order — the
i-th outcome of a run is the result of processing offset i+1 against the store
left by the previous offsets, and a run always yields 7 outcomes — and any
exception raised inside a day iteration is caught at the per-iteration
boundary and converted into a `failed` outcome with the store unchanged, so no
day's error ever halts the loop. -/
theorem mainLoop_per_day_isolation (env : Env) (cells : Cells) :
    (mainLoop env cells).1.length = 7 ∧
    (∀ i : Nat, (mainLoop env cells).1[i]? =
      (day_offsets[i]?).map (fun d =>
        (processDay env (runDays env (day_offsets.take i) cells).2 d).1)) ∧
    (∀ (d : Nat) (e : String), processDayBody env cells d = Except.error e →
      processDay env cells d = (DayOutcome.failed e, cells)) := by
  refine ⟨?_, ?_, ?_⟩
  · rw [mainLoop, runDays_length]
    rfl
  · intro i
    exact runDays_get env day_offsets cells i
  · intro d e h
    exact processDay_of_body_error h

theorem mainLoop_per_day_isolation_witness :
    processDay env_boom [] 1 = (DayOutcome.failed "boom", []) :=
  (mainLoop_per_day_isolation env_boom []).2.2 1 "boom" (by decide)

/-- C9: `main()` itself returns 1 on a fatal startup error (before any day is
processed) and 0 on completion of the window, but the `__main__` block calls
`main()` without `sys.exit`, so the operating-system exit status of the
process is 0 even on a fatal startup error — contradicting the claimed
non-zero termination. -/
theorem exit_status_behavior :
    main_return st_badConfig env_trivial [] = 1 ∧
    (mainRun st_badConfig env_trivial []).2.1 = [] ∧
    (mainRun st_badConfig env_trivial []).2.2 = [] ∧
    process_exit_status st_badConfig env_trivial [] = 0 ∧
    main_return st_good env_trivial [] = 0 ∧
    process_exit_status st_good env_trivial [] = 0 := by
  decide

/-- C1 (amended): a day's cell is written only when its current value is
falsy (`None` or `""`); a truthy cell yields `skippedAlreadyFilled` with the
store unchanged and without consulting the task source or the writer; running
the loop twice against an unchanged environment leaves every cell of the final
store identical; and the second run reports `skippedAlreadyFilled` for every
day the first run wrote with a non-empty summary.  (A day whose written
summary is the empty string — possible when a fetched task has empty content —
is re-processed rather than skipped, which is the sole correction to the
claim; rewriting leaves the contents identical.) -/
theorem mainLoop_idempotent (env : Env) (cells : Cells) :
    (∀ (d : Nat) (c : String),
      getCell (processDay env cells d).2 c ≠ getCell cells c → ¬ truthy (getCell cells c)) ∧
    (∀ (d : Nat) (s : String),
      (processDay env cells d).1 = DayOutcome.skippedAlreadyFilled s →
      (processDay env cells d).2 = cells ∧
      ∀ f g, processDay (envWithFetch env f g) cells d =
        (DayOutcome.skippedAlreadyFilled s, cells)) ∧
    (∀ c, getCell (mainLoop env (mainLoop env cells).2).2 c =
      getCell (mainLoop env cells).2 c) ∧
    (∀ (i : Nat) (s : String),
      (mainLoop env cells).1[i]? = some (DayOutcome.written s) → s ≠ "" →
      (mainLoop env (mainLoop env cells).2).1[i]? =
        some (DayOutcome.skippedAlreadyFilled s)) := by
  have hreplay := runDays_replay env day_offsets cells (mainLoop env cells).2 (fun c => rfl)
  refine ⟨?_, ?_, ?_, ?_⟩
  · intro d c hne htr
    exact hne (processDay_frozen env cells d c htr)
  · intro d s h
    obtain ⟨addr, hpre, hv, hs, hcells⟩ := processDay_skipped_filled_inv h
    refine ⟨hcells, fun f g => ?_⟩
    have hpre2 : preDay (envWithFetch env f g) d = Except.ok (PreResult.cell addr) := hpre
    exact processDay_filled cells hpre2 hv hs
  · intro c
    exact hreplay.1 c
  · intro i s hw hs
    simp only [mainLoop] at hw
    obtain ⟨o2, ho2, hrel⟩ := forall2_get hreplay.2 i (DayOutcome.written s) hw
    rw [hrel s rfl hs] at ho2
    exact ho2

theorem mainLoop_idempotent_witness :
    (mainLoop env_write []).1[0]? = some (DayOutcome.written "A") ∧
    (mainLoop env_write (mainLoop env_write []).2).1[0]? =
      some (DayOutcome.skippedAlreadyFilled "A") :=
  ⟨by decide, (mainLoop_idempotent env_write []).2.2.2 0 "A" (by decide) (by decide)⟩

/-- C1 counterexample: in a run whose single completed task for day offset 1
has empty content, the first run writes that day's cell (with the empty
summary), the spreadsheet is then unchanged, yet the second run's outcome for
that day is again `written` — not `skippedAlreadyFilled` — so the claim that
the second run skips every previously-written day is false. -/
theorem mainLoop_idempotent_counterexample :
    (mainLoop env_empty_task []).1[0]? = some (DayOutcome.written "") ∧
    (mainLoop env_empty_task (mainLoop env_empty_task []).2).1[0]? =
      some (DayOutcome.written "") := by
  decide
